import Mathlib

/-!
Verification of the vertical profile aggregator of the `erad2022` notebooks.

The aggregation, written in `notebooks/pyart/answer_question_pyart_meteoswiss.ipynb`, is

  weighting = np.exp(-0.5 * cappi_qpe.z['data'] / 1000)
  qpe_ground = weighting[:, None, None] * cappi_qpe.fields['radar_estimated_rain_rate']['data']
  qpe_ground = np.nansum(qpe_ground, axis=0) / np.sum(weighting)

We embed it over real numbers, with `Option ℝ` modelling NaN/masked voxels
(`np.nansum` treats a NaN product term as contributing zero).  The decay scale
is kept as a parameter; the notebook passes the literal `1000`.
-/

open Finset Filter

/-- A 3-D gridded field indexed by (level, row, column); `none` models a
missing (NaN / masked) voxel. -/
structure Grid where
  nz : ℕ
  ny : ℕ
  nx : ℕ
  val : ℕ → ℕ → ℕ → Option ℝ

/-- The per-altitude weight `np.exp(-0.5 * z / scale)`. -/
noncomputable def weight (scale z : ℝ) : ℝ := Real.exp (-0.5 * z / scale)

/-- `weighting = np.exp(-0.5 * cappi_qpe.z['data'] / scale)` applied to the
list of level altitudes (the notebook passes `scale = 1000`). -/
noncomputable def weighting (altitudes : List ℝ) (scale : ℝ) : List ℝ :=
  altitudes.map (fun z => weight scale z)

/-- One term of `np.nansum(weighting[:,None,None] * grid, axis=0)`: a missing
voxel makes the product NaN, which `nansum` counts as zero. -/
noncomputable def nanterm (w : ℝ) (v : Option ℝ) : ℝ :=
  match v with
  | some x => w * x
  | none => 0

/-- The aggregated surface
`np.nansum(weighting[:,None,None]*grid, axis=0) / np.sum(weighting)` at cell
(i, j), for the matching-shape case `altitudes.length = g.nz`.  The numerator
runs over the grid levels, the denominator over all the weights; `none`
models the NaN produced when the weight sum is zero (possible only with zero
levels). -/
noncomputable def qpe_ground (g : Grid) (altitudes : List ℝ) (scale : ℝ)
    (i j : ℕ) : Option ℝ :=
  if (∑ k in range altitudes.length, weight scale (altitudes.getD k 0)) = 0 then
    none
  else
    some ((∑ k in range g.nz,
        nanterm (weight scale (altitudes.getD k 0)) (g.val k i j))
      / ∑ k in range altitudes.length, weight scale (altitudes.getD k 0))

/-- `weighting[:,None,None] * grid` with numpy broadcasting along axis 0: a
length-1 axis is replicated to the other axis length. -/
noncomputable def qpe_ground_bc (g : Grid) (altitudes : List ℝ) (scale : ℝ)
    (i j : ℕ) : Option ℝ :=
  if (∑ k in range altitudes.length, weight scale (altitudes.getD k 0)) = 0 then
    none
  else
    some ((∑ k in range (if altitudes.length = 1 then g.nz else altitudes.length),
        nanterm (weight scale (altitudes.getD (if altitudes.length = 1 then 0 else k) 0))
          (g.val (if g.nz = 1 then 0 else k) i j))
      / ∑ k in range altitudes.length, weight scale (altitudes.getD k 0))

/-- The only failure the snippet can produce: numpy refuses to broadcast the
weight vector against the grid when the level counts differ and neither is 1. -/
inductive NpError where
  | broadcastMismatch
deriving DecidableEq

/-- Running the aggregation snippet: the multiplication raises numpy's
broadcast error unless the level counts agree or one of them is 1; otherwise
the surface is computed.  No other validation happens in the notebook. -/
noncomputable def qpe_ground_run (g : Grid) (altitudes : List ℝ) (scale : ℝ) :
    Except NpError (ℕ → ℕ → Option ℝ) :=
  if altitudes.length = g.nz ∨ altitudes.length = 1 ∨ g.nz = 1 then
    Except.ok (qpe_ground_bc g altitudes scale)
  else Except.error NpError.broadcastMismatch

/-- The spec's own formula for the surface: weighted sum over the nz levels
with an undefined voxel contributing zero, divided by the total weight sum
over all nz levels. -/
noncomputable def spec_surface (g : Grid) (altitudes : List ℝ) (scale : ℝ)
    (i j : ℕ) : ℝ :=
  (∑ k in range g.nz, weight scale (altitudes.getD k 0) * (g.val k i j).getD 0)
    / ∑ k in range g.nz, weight scale (altitudes.getD k 0)

/-- Pointwise scaling of the defined grid values; missing voxels stay missing. -/
def Grid.scaleVals (c : ℝ) (g : Grid) : Grid :=
  ⟨g.nz, g.ny, g.nx, fun k i j => (g.val k i j).map (fun v => c * v)⟩

/- ## Helper lemmas -/

lemma weight_pos (scale z : ℝ) : 0 < weight scale z := Real.exp_pos _

lemma weightSum_pos (altitudes : List ℝ) (scale : ℝ)
    (h : 1 ≤ altitudes.length) :
    0 < ∑ k in range altitudes.length, weight scale (altitudes.getD k 0) :=
  Finset.sum_pos (fun k _ => weight_pos scale _)
    (Finset.nonempty_range_iff.mpr (by omega))

lemma nanterm_none (w : ℝ) : nanterm w none = 0 := rfl

lemma nanterm_some (w x : ℝ) : nanterm w (some x) = w * x := rfl

lemma qpe_ground_bc_eq (g : Grid) (altitudes : List ℝ) (scale : ℝ)
    (hlen : altitudes.length = g.nz) :
    qpe_ground_bc g altitudes scale = qpe_ground g altitudes scale := by
  funext i j
  unfold qpe_ground_bc qpe_ground
  by_cases hden : (∑ k in range altitudes.length,
      weight scale (altitudes.getD k 0)) = 0
  · rw [if_pos hden, if_pos hden]
  · rw [if_neg hden, if_neg hden]
    congr 1
    rw [hlen, ite_self]
    congr 1
    apply Finset.sum_congr rfl
    intro k hk
    by_cases h1 : g.nz = 1
    · have hk0 : k = 0 := by
        have := Finset.mem_range.mp hk
        omega
      simp [h1, hk0]
    · simp [h1]

/- ## Claims -/

/-- C1: for every grid with nz ≥ 1, altitudes of length nz, and positive
scale, the aggregation runs without failure and returns at every cell the
spec's surface value: the weighted sum over levels (undefined voxels
contributing zero) divided by the total weight sum over all nz levels. -/
theorem C1_aggregator_formula (g : Grid) (altitudes : List ℝ) (scale : ℝ)
    (hnz : 1 ≤ g.nz) (hlen : altitudes.length = g.nz) (hs : 0 < scale) :
    qpe_ground_run g altitudes scale = Except.ok (qpe_ground g altitudes scale) ∧
    ∀ i j, qpe_ground g altitudes scale i j =
      some (spec_surface g altitudes scale i j) := by
  constructor
  · unfold qpe_ground_run
    rw [if_pos (Or.inl hlen), qpe_ground_bc_eq g altitudes scale hlen]
  · intro i j
    have hden : 0 < ∑ k in range altitudes.length,
        weight scale (altitudes.getD k 0) :=
      weightSum_pos altitudes scale (by omega)
    unfold qpe_ground spec_surface
    rw [if_neg (ne_of_gt hden)]
    congr 1
    rw [hlen]
    congr 1
    apply Finset.sum_congr rfl
    intro k _
    cases h : g.val k i j <;> simp [nanterm, h]

theorem C1_aggregator_formula_w :
    1 ≤ (Grid.mk 1 1 1 (fun _ _ _ => some 4)).nz ∧
    ([(0 : ℝ)]).length = (Grid.mk 1 1 1 (fun _ _ _ => some 4)).nz ∧
    (0 : ℝ) < 1000 ∧
    (qpe_ground_run (Grid.mk 1 1 1 (fun _ _ _ => some 4)) [(0 : ℝ)] 1000 =
      Except.ok (qpe_ground (Grid.mk 1 1 1 (fun _ _ _ => some 4)) [(0 : ℝ)] 1000) ∧
     ∀ i j, qpe_ground (Grid.mk 1 1 1 (fun _ _ _ => some 4)) [(0 : ℝ)] 1000 i j =
       some (spec_surface (Grid.mk 1 1 1 (fun _ _ _ => some 4)) [(0 : ℝ)] 1000 i j)) :=
  ⟨by norm_num, by norm_num, by norm_num,
    C1_aggregator_formula _ _ _ (by norm_num) (by norm_num) (by norm_num)⟩

/-- C2: a horizontal cell at which every one of the nz ≥ 1 levels is
undefined aggregates to 0, not to an undefined value. -/
theorem C2_all_missing_zero (g : Grid) (altitudes : List ℝ) (scale : ℝ)
    (i j : ℕ) (hnz : 1 ≤ g.nz) (hlen : altitudes.length = g.nz)
    (hall : ∀ k, k < g.nz → g.val k i j = none) :
    qpe_ground g altitudes scale i j = some 0 := by
  have hden : 0 < ∑ k in range altitudes.length,
      weight scale (altitudes.getD k 0) :=
    weightSum_pos altitudes scale (by omega)
  unfold qpe_ground
  rw [if_neg (ne_of_gt hden)]
  have hnum : (∑ k in range g.nz,
      nanterm (weight scale (altitudes.getD k 0)) (g.val k i j)) = 0 := by
    apply Finset.sum_eq_zero
    intro k hk
    rw [hall k (Finset.mem_range.mp hk)]
    rfl
  rw [hnum, zero_div]

theorem C2_all_missing_zero_w :
    1 ≤ (Grid.mk 2 1 1 (fun _ _ _ => none)).nz ∧
    ([(0 : ℝ), 1000]).length = (Grid.mk 2 1 1 (fun _ _ _ => none)).nz ∧
    (∀ k, k < (Grid.mk 2 1 1 (fun _ _ _ => none)).nz →
      (Grid.mk 2 1 1 (fun _ _ _ => none)).val k 0 0 = none) ∧
    qpe_ground (Grid.mk 2 1 1 (fun _ _ _ => none)) [(0 : ℝ), 1000] 1000 0 0 =
      some 0 :=
  ⟨by norm_num, by norm_num, fun _ _ => rfl,
    C2_all_missing_zero _ _ _ _ _ (by norm_num) (by norm_num)
      (fun _ _ => rfl)⟩

lemma weighting_getD (altitudes : List ℝ) (scale : ℝ) (k : ℕ)
    (hk : k < altitudes.length) :
    (weighting altitudes scale).getD k 0 = weight scale (altitudes.getD k 0) := by
  unfold weighting
  rw [List.getD_eq_getElem?_getD, List.getElem?_map, List.getD_eq_getElem?_getD,
    List.getElem?_eq_getElem hk]
  rfl

/-- C3 counterexample: the snippet performs none of the three announced
checks.  With a negative scale it succeeds (no `InvalidParameter`), with a
single altitude against a two-level grid it silently broadcasts (no
`ShapeMismatch`), and with zero levels it succeeds (no `EmptyInput`). -/
theorem C3_error_claims_cx :
    qpe_ground_run (Grid.mk 2 1 1 (fun _ _ _ => some 1)) [(0 : ℝ), 1000] (-1) =
      Except.ok (qpe_ground_bc (Grid.mk 2 1 1 (fun _ _ _ => some 1)) [(0 : ℝ), 1000] (-1)) ∧
    qpe_ground_run (Grid.mk 2 1 1 (fun _ _ _ => some 1)) [(0 : ℝ)] 1000 =
      Except.ok (qpe_ground_bc (Grid.mk 2 1 1 (fun _ _ _ => some 1)) [(0 : ℝ)] 1000) ∧
    qpe_ground_run (Grid.mk 0 1 1 (fun _ _ _ => none)) ([] : List ℝ) 1000 =
      Except.ok (qpe_ground_bc (Grid.mk 0 1 1 (fun _ _ _ => none)) ([] : List ℝ) 1000) := by
  refine ⟨?_, ?_, ?_⟩ <;> · unfold qpe_ground_run; rw [if_pos] <;> simp

/-- C3 (amended): the aggregation performs no explicit validation.  Its only
failure mode is the numpy broadcast error, raised exactly when the altitude
count and the level count differ and neither equals 1; a non-positive scale
and an empty grid do not cause a failure. -/
theorem C3_only_broadcast_fails (g : Grid) (altitudes : List ℝ) (scale : ℝ) :
    qpe_ground_run g altitudes scale = Except.error NpError.broadcastMismatch ↔
      ¬(altitudes.length = g.nz ∨ altitudes.length = 1 ∨ g.nz = 1) := by
  unfold qpe_ground_run
  split_ifs with h <;> simp [h]

/-- C4: every weight is `exp(-0.5 * altitude / scale)`, weights are strictly
positive, and for strictly increasing altitudes and positive scale they are
strictly decreasing in the level index. -/
theorem C4_weights (altitudes : List ℝ) (scale : ℝ) (hs : 0 < scale) :
    (∀ k, k < altitudes.length →
      (weighting altitudes scale).getD k 0 =
        Real.exp (-0.5 * altitudes.getD k 0 / scale) ∧
      0 < (weighting altitudes scale).getD k 0) ∧
    ((∀ a b, a < b → b < altitudes.length →
        altitudes.getD a 0 < altitudes.getD b 0) →
      ∀ a b, a < b → b < altitudes.length →
        (weighting altitudes scale).getD b 0 < (weighting altitudes scale).getD a 0) := by
  constructor
  · intro k hk
    rw [weighting_getD altitudes scale k hk]
    exact ⟨rfl, weight_pos scale _⟩
  · intro hmono a b hab hb
    rw [weighting_getD altitudes scale b hb,
      weighting_getD altitudes scale a (by omega)]
    have hz : altitudes.getD a 0 < altitudes.getD b 0 := hmono a b hab hb
    unfold weight
    exact Real.exp_lt_exp.mpr
      ((div_lt_div_iff_of_pos_right hs).mpr (by linarith))

theorem C4_weights_w :
    (0 : ℝ) < 1000 ∧
    ((∀ k, k < ([(0 : ℝ), 1000]).length →
      (weighting [(0 : ℝ), 1000] 1000).getD k 0 =
        Real.exp (-0.5 * ([(0 : ℝ), 1000]).getD k 0 / 1000) ∧
      0 < (weighting [(0 : ℝ), 1000] 1000).getD k 0) ∧
    ((∀ a b, a < b → b < ([(0 : ℝ), 1000]).length →
        ([(0 : ℝ), 1000]).getD a 0 < ([(0 : ℝ), 1000]).getD b 0) →
      ∀ a b, a < b → b < ([(0 : ℝ), 1000]).length →
        (weighting [(0 : ℝ), 1000] 1000).getD b 0 <
          (weighting [(0 : ℝ), 1000] 1000).getD a 0)) :=
  ⟨by norm_num, C4_weights [(0 : ℝ), 1000] 1000 (by norm_num)⟩

/-- C5: a single-level grid with a defined value aggregates to exactly that
value — the weight cancels between numerator and denominator. -/
theorem C5_single_level_identity (g : Grid) (altitudes : List ℝ) (scale : ℝ)
    (i j : ℕ) (v : ℝ) (hnz : g.nz = 1) (hlen : altitudes.length = 1)
    (hdef : g.val 0 i j = some v) :
    qpe_ground g altitudes scale i j = some v := by
  have hden : 0 < ∑ k in range altitudes.length,
      weight scale (altitudes.getD k 0) :=
    weightSum_pos altitudes scale (by omega)
  unfold qpe_ground
  rw [if_neg (ne_of_gt hden), hnz, hlen, Finset.sum_range_one,
    Finset.sum_range_one, hdef, nanterm_some,
    mul_div_cancel_left₀ v (ne_of_gt (weight_pos scale _))]

theorem C5_single_level_identity_w :
    (Grid.mk 1 1 1 (fun _ _ _ => some 7)).nz = 1 ∧
    ([(500 : ℝ)]).length = 1 ∧
    (Grid.mk 1 1 1 (fun _ _ _ => some 7)).val 0 0 0 = some 7 ∧
    qpe_ground (Grid.mk 1 1 1 (fun _ _ _ => some 7)) [(500 : ℝ)] 1000 0 0 =
      some 7 :=
  ⟨rfl, rfl, rfl,
    C5_single_level_identity _ _ _ _ _ _ rfl rfl rfl⟩

/-- C6: the aggregation is a pure function of its inputs — two runs on equal
grid, altitudes and scale yield equal surfaces (the embedding itself is
stateless, mirroring the snippet, whose numpy operations allocate fresh
arrays and mutate nothing). -/
theorem C6_deterministic (g1 g2 : Grid) (a1 a2 : List ℝ) (s1 s2 : ℝ)
    (hg : g1 = g2) (ha : a1 = a2) (hsc : s1 = s2) :
    qpe_ground_run g1 a1 s1 = qpe_ground_run g2 a2 s2 := by
  rw [hg, ha, hsc]

theorem C6_deterministic_w :
    Grid.mk 1 1 1 (fun _ _ _ => some 1) = Grid.mk 1 1 1 (fun _ _ _ => some 1) ∧
    [(0 : ℝ)] = [(0 : ℝ)] ∧ (1000 : ℝ) = 1000 ∧
    qpe_ground_run (Grid.mk 1 1 1 (fun _ _ _ => some 1)) [(0 : ℝ)] 1000 =
      qpe_ground_run (Grid.mk 1 1 1 (fun _ _ _ => some 1)) [(0 : ℝ)] 1000 :=
  ⟨rfl, rfl, rfl, C6_deterministic _ _ _ _ _ _ rfl rfl rfl⟩

/-- C10: scaling every defined grid value by c scales every aggregated cell
by c, altitudes and scale held fixed; missing cells stay missing. -/
theorem C10_homogeneous (c : ℝ) (g : Grid) (altitudes : List ℝ) (scale : ℝ)
    (i j : ℕ) :
    qpe_ground (Grid.scaleVals c g) altitudes scale i j =
      (qpe_ground g altitudes scale i j).map (fun v => c * v) := by
  unfold qpe_ground Grid.scaleVals
  by_cases hden : (∑ k in range altitudes.length,
      weight scale (altitudes.getD k 0)) = 0
  · rw [if_pos hden, if_pos hden]
    rfl
  · rw [if_neg hden, if_neg hden]
    have hnum : (∑ k in range g.nz,
        nanterm (weight scale (altitudes.getD k 0))
          ((g.val k i j).map (fun v => c * v))) =
        c * ∑ k in range g.nz,
          nanterm (weight scale (altitudes.getD k 0)) (g.val k i j) := by
      rw [Finset.mul_sum]
      apply Finset.sum_congr rfl
      intro k _
      cases h : g.val k i j <;> simp [nanterm, h] <;> ring
    rw [hnum, mul_div_assoc]
    rfl

/-- C9: with at least one level, altitudes matching the level count, and a
positive scale, every cell of the aggregated surface is a defined value —
missing voxels never propagate to the output. -/
theorem C9_output_always_defined (g : Grid) (altitudes : List ℝ) (scale : ℝ)
    (i j : ℕ) (hnz : 1 ≤ g.nz) (hlen : altitudes.length = g.nz)
    (hs : 0 < scale) :
    ∃ x : ℝ, qpe_ground g altitudes scale i j = some x := by
  have hden : 0 < ∑ k in range altitudes.length,
      weight scale (altitudes.getD k 0) :=
    weightSum_pos altitudes scale (by omega)
  unfold qpe_ground
  rw [if_neg (ne_of_gt hden)]
  exact ⟨_, rfl⟩

theorem C9_output_always_defined_w :
    1 ≤ (Grid.mk 2 1 1 (fun k _ _ => if k = 0 then some 3 else none)).nz ∧
    ([(0 : ℝ), 1000]).length =
      (Grid.mk 2 1 1 (fun k _ _ => if k = 0 then some 3 else none)).nz ∧
    (0 : ℝ) < 1000 ∧
    ∃ x : ℝ, qpe_ground (Grid.mk 2 1 1 (fun k _ _ => if k = 0 then some 3 else none))
      [(0 : ℝ), 1000] 1000 0 0 = some x :=
  ⟨by norm_num, by norm_num, by norm_num,
    C9_output_always_defined _ _ _ _ _ (by norm_num) (by norm_num) (by norm_num)⟩

/- ## Numeric bounds for the worked example (C7) -/

lemma exp_neg_one_bounds :
    (0.3678794 : ℝ) < Real.exp (-1) ∧ Real.exp (-1) < 0.3678795 := by
  have h1 := Real.exp_one_gt_d9
  have h2 := Real.exp_one_lt_d9
  have hpos : (0 : ℝ) < Real.exp 1 := Real.exp_pos 1
  have hq : (0 : ℝ) < Real.exp (-1) := Real.exp_pos _
  have hinv : Real.exp (-1) * Real.exp 1 = 1 := by
    rw [← Real.exp_add]
    norm_num
  constructor
  · nlinarith
  · nlinarith

lemma exp_neg_half_bounds :
    (0.60653 : ℝ) < Real.exp (-0.5) ∧ Real.exp (-0.5) < 0.60654 := by
  have hsq : Real.exp (-0.5) * Real.exp (-0.5) = Real.exp (-1) := by
    rw [← Real.exp_add]
    norm_num
  have hp : (0 : ℝ) < Real.exp (-0.5) := Real.exp_pos _
  have hb := exp_neg_one_bounds
  constructor
  · nlinarith [hb.1]
  · nlinarith [hb.2]

lemma weight_1000_0 : weight 1000 0 = 1 := by
  unfold weight
  norm_num

lemma weight_1000_1000 : weight 1000 1000 = Real.exp (-0.5) := by
  unfold weight
  congr 1
  norm_num

lemma weight_1000_2000 : weight 1000 2000 = Real.exp (-1) := by
  unfold weight
  congr 1
  norm_num

/-- The worked example grid of the spec: one row, two columns, three levels;
the first column holds 10 at every level, the second holds 10 at ground
level and is missing above. -/
def exG : Grid :=
  ⟨3, 1, 2, fun k _ j => if j = 0 then some 10 else if k = 0 then some 10 else none⟩

lemma exDen : (∑ k in range ([(0 : ℝ), 1000, 2000]).length,
    weight 1000 (([(0 : ℝ), 1000, 2000]).getD k 0)) =
    1 + Real.exp (-0.5) + Real.exp (-1) := by
  rw [show ([(0 : ℝ), 1000, 2000]).length = 3 from rfl, Finset.sum_range_succ,
    Finset.sum_range_succ, Finset.sum_range_one,
    show ([(0 : ℝ), 1000, 2000]).getD 0 0 = 0 from rfl,
    show ([(0 : ℝ), 1000, 2000]).getD 1 0 = 1000 from rfl,
    show ([(0 : ℝ), 1000, 2000]).getD 2 0 = 2000 from rfl,
    weight_1000_0, weight_1000_1000, weight_1000_2000]

lemma exDen_pos : (0 : ℝ) < 1 + Real.exp (-0.5) + Real.exp (-1) := by
  have := Real.exp_pos (-0.5 : ℝ)
  have := Real.exp_pos (-1 : ℝ)
  linarith

lemma exUniform : qpe_ground exG [(0 : ℝ), 1000, 2000] 1000 0 0 = some 10 := by
  unfold qpe_ground
  rw [if_neg (by rw [exDen]; exact ne_of_gt exDen_pos)]
  congr 1
  rw [exDen, show exG.nz = 3 from rfl, Finset.sum_range_succ,
    Finset.sum_range_succ, Finset.sum_range_one,
    show ([(0 : ℝ), 1000, 2000]).getD 0 0 = 0 from rfl,
    show ([(0 : ℝ), 1000, 2000]).getD 1 0 = 1000 from rfl,
    show ([(0 : ℝ), 1000, 2000]).getD 2 0 = 2000 from rfl,
    weight_1000_0, weight_1000_1000, weight_1000_2000,
    show exG.val 0 0 0 = some 10 from rfl,
    show exG.val 1 0 0 = some 10 from rfl,
    show exG.val 2 0 0 = some 10 from rfl,
    nanterm_some, nanterm_some, nanterm_some]
  rw [div_eq_iff (ne_of_gt exDen_pos)]
  ring

lemma exMixed : qpe_ground exG [(0 : ℝ), 1000, 2000] 1000 0 1 =
    some (10 / (1 + Real.exp (-0.5) + Real.exp (-1))) := by
  unfold qpe_ground
  rw [if_neg (by rw [exDen]; exact ne_of_gt exDen_pos)]
  congr 1
  rw [exDen, show exG.nz = 3 from rfl, Finset.sum_range_succ,
    Finset.sum_range_succ, Finset.sum_range_one,
    show ([(0 : ℝ), 1000, 2000]).getD 0 0 = 0 from rfl,
    weight_1000_0,
    show exG.val 0 0 1 = some 10 from rfl,
    show exG.val 1 0 1 = none from rfl,
    show exG.val 2 0 1 = none from rfl,
    nanterm_some, nanterm_none, nanterm_none]
  norm_num

/-- C7 counterexample: in the spec's worked example the cell with values
`[10, NaN, NaN]` aggregates to `10 / (1 + exp(-1/2) + exp(-1)) ≈ 5.065`,
which is more than 0.02 away from the claimed "approximately 5.09". -/
theorem C7_example_cx :
    |(qpe_ground exG [(0 : ℝ), 1000, 2000] 1000 0 1).getD 0 - 5.09| > 0.02 := by
  rw [exMixed, Option.getD_some]
  have hp := exp_neg_half_bounds
  have hq := exp_neg_one_bounds
  have hv : 10 / (1 + Real.exp (-0.5) + Real.exp (-1)) < 5.065 := by
    rw [div_lt_iff exDen_pos]
    nlinarith [hp.1, hq.1]
  have h2 : (0.02 : ℝ) < 5.09 - 10 / (1 + Real.exp (-0.5) + Real.exp (-1)) := by
    linarith
  calc (0.02 : ℝ) < 5.09 - 10 / (1 + Real.exp (-0.5) + Real.exp (-1)) := h2
    _ ≤ |5.09 - 10 / (1 + Real.exp (-0.5) + Real.exp (-1))| := le_abs_self _
    _ = |10 / (1 + Real.exp (-0.5) + Real.exp (-1)) - 5.09| := abs_sub_comm _ _

/-- C7 (amended): with altitudes [0, 1000, 2000] and scale 1000 the weights
are 1, exp(-1/2) ≈ 0.6065 and exp(-1) ≈ 0.3679 (to within 10⁻⁴); a column of
[10, 10, 10] aggregates to exactly 10, and a column of [10, NaN, NaN]
aggregates to 10·1.0 / (1.0 + exp(-1/2) + exp(-1)) ≈ 5.06. -/
theorem C7_example_values :
    (weighting [(0 : ℝ), 1000, 2000] 1000).getD 0 0 = 1 ∧
    |(weighting [(0 : ℝ), 1000, 2000] 1000).getD 1 0 - 0.6065| < 0.0001 ∧
    |(weighting [(0 : ℝ), 1000, 2000] 1000).getD 2 0 - 0.3679| < 0.0001 ∧
    qpe_ground exG [(0 : ℝ), 1000, 2000] 1000 0 0 = some 10 ∧
    qpe_ground exG [(0 : ℝ), 1000, 2000] 1000 0 1 =
      some (10 * 1 / (1 + Real.exp (-0.5) + Real.exp (-1))) ∧
    |(qpe_ground exG [(0 : ℝ), 1000, 2000] 1000 0 1).getD 0 - 5.06| < 0.01 := by
  have hp := exp_neg_half_bounds
  have hq := exp_neg_one_bounds
  have hw0 : (weighting [(0 : ℝ), 1000, 2000] 1000).getD 0 0 = 1 := by
    rw [weighting_getD _ _ 0 (by norm_num),
      show ([(0 : ℝ), 1000, 2000]).getD 0 0 = 0 from rfl, weight_1000_0]
  have hw1 : (weighting [(0 : ℝ), 1000, 2000] 1000).getD 1 0 = Real.exp (-0.5) := by
    rw [weighting_getD _ _ 1 (by norm_num),
      show ([(0 : ℝ), 1000, 2000]).getD 1 0 = 1000 from rfl, weight_1000_1000]
  have hw2 : (weighting [(0 : ℝ), 1000, 2000] 1000).getD 2 0 = Real.exp (-1) := by
    rw [weighting_getD _ _ 2 (by norm_num),
      show ([(0 : ℝ), 1000, 2000]).getD 2 0 = 2000 from rfl, weight_1000_2000]
  refine ⟨hw0, ?_, ?_, exUniform, ?_, ?_⟩
  · rw [hw1, abs_sub_lt_iff]
    constructor <;> linarith [hp.1, hp.2]
  · rw [hw2, abs_sub_lt_iff]
    constructor <;> linarith [hq.1, hq.2]
  · rw [exMixed]
    norm_num
  · rw [exMixed, Option.getD_some, abs_sub_lt_iff]
    have hlow : (5.055 : ℝ) < 10 / (1 + Real.exp (-0.5) + Real.exp (-1)) := by
      rw [lt_div_iff exDen_pos]
      nlinarith [hp.2, hq.2]
    have hhigh : 10 / (1 + Real.exp (-0.5) + Real.exp (-1)) < 5.065 := by
      rw [div_lt_iff exDen_pos]
      nlinarith [hp.1, hq.1]
    constructor <;> linarith

/-- C8: for strictly increasing altitudes, (i) for levels k < m the relative
weight weight[m]/weight[k] is strictly larger at a larger positive scale,
(ii) every weight tends to 1 as the scale tends to infinity, and (iii) every
cell of the aggregated surface tends to the unweighted mean over the levels
with missing voxels counted as zero. -/
theorem C8_scale_monotone_limit (g : Grid) (altitudes : List ℝ)
    (hnz : 1 ≤ g.nz) (hlen : altitudes.length = g.nz)
    (hmono : ∀ a b, a < b → b < altitudes.length →
      altitudes.getD a 0 < altitudes.getD b 0) :
    (∀ k m, k < m → m < altitudes.length → ∀ s1 s2 : ℝ, 0 < s1 → s1 < s2 →
      weight s1 (altitudes.getD m 0) / weight s1 (altitudes.getD k 0) <
        weight s2 (altitudes.getD m 0) / weight s2 (altitudes.getD k 0)) ∧
    (∀ k, Tendsto (fun s => weight s (altitudes.getD k 0)) atTop (nhds 1)) ∧
    (∀ i j, Tendsto (fun s => (qpe_ground g altitudes s i j).getD 0) atTop
      (nhds ((∑ k in range g.nz, (g.val k i j).getD 0) / (g.nz : ℝ)))) := by
  have hweight : ∀ z : ℝ, Tendsto (fun s : ℝ => weight s z) atTop (nhds 1) := by
    intro z
    have harg : Tendsto (fun s : ℝ => -0.5 * z / s) atTop (nhds 0) :=
      tendsto_const_nhds.div_atTop tendsto_id
    have hc := (Real.continuous_exp.tendsto 0).comp harg
    rw [Real.exp_zero] at hc
    exact hc
  refine ⟨?_, fun k => hweight _, ?_⟩
  · intro k m hkm hm s1 s2 hs1 hs12
    have hz := hmono k m hkm hm
    have hs2 : 0 < s2 := lt_trans hs1 hs12
    unfold weight
    rw [← Real.exp_sub, ← Real.exp_sub]
    apply Real.exp_lt_exp.mpr
    rw [div_sub_div_same, div_sub_div_same, div_lt_div_iff hs1 hs2]
    have hc : -0.5 * altitudes.getD m 0 - -0.5 * altitudes.getD k 0 < 0 := by
      linarith
    exact mul_lt_mul_of_neg_left hs12 hc
  · intro i j
    have hval : ∀ s : ℝ, (qpe_ground g altitudes s i j).getD 0 =
        (∑ k in range g.nz,
          nanterm (weight s (altitudes.getD k 0)) (g.val k i j))
          / ∑ k in range altitudes.length, weight s (altitudes.getD k 0) := by
      intro s
      have hden : 0 < ∑ k in range altitudes.length,
          weight s (altitudes.getD k 0) :=
        weightSum_pos altitudes s (by omega)
      unfold qpe_ground
      rw [if_neg (ne_of_gt hden)]
      rfl
    have hnum : Tendsto (fun s : ℝ => ∑ k in range g.nz,
        nanterm (weight s (altitudes.getD k 0)) (g.val k i j)) atTop
        (nhds (∑ k in range g.nz, (g.val k i j).getD 0)) := by
      apply tendsto_finset_sum
      intro k _
      cases h : g.val k i j with
      | none => simpa [nanterm, h] using tendsto_const_nhds
      | some v =>
        have hm : Tendsto (fun s : ℝ => weight s (altitudes.getD k 0) * v)
            atTop (nhds (1 * v)) :=
          (hweight _).mul tendsto_const_nhds
        rw [one_mul] at hm
        simpa [nanterm, h] using hm
    have hden : Tendsto (fun s : ℝ => ∑ k in range altitudes.length,
        weight s (altitudes.getD k 0)) atTop (nhds ((g.nz : ℝ))) := by
      have h1 : Tendsto (fun s : ℝ => ∑ k in range altitudes.length,
          weight s (altitudes.getD k 0)) atTop
          (nhds (∑ _x in range altitudes.length, (1 : ℝ))) :=
        tendsto_finset_sum _ (fun k _ => hweight _)
      simpa [hlen] using h1
    have hnzR : ((g.nz : ℝ)) ≠ 0 := Nat.cast_ne_zero.mpr (by omega)
    exact (hnum.div hden hnzR).congr (fun s => (hval s).symm)

theorem C8_scale_monotone_limit_w :
    1 ≤ (Grid.mk 2 1 1 (fun k _ _ => if k = 0 then some 10 else none)).nz ∧
    ([(0 : ℝ), 1000]).length =
      (Grid.mk 2 1 1 (fun k _ _ => if k = 0 then some 10 else none)).nz ∧
    (∀ a b, a < b → b < ([(0 : ℝ), 1000]).length →
      ([(0 : ℝ), 1000]).getD a 0 < ([(0 : ℝ), 1000]).getD b 0) ∧
    ((∀ k m, k < m → m < ([(0 : ℝ), 1000]).length → ∀ s1 s2 : ℝ, 0 < s1 → s1 < s2 →
      weight s1 (([(0 : ℝ), 1000]).getD m 0) / weight s1 (([(0 : ℝ), 1000]).getD k 0) <
        weight s2 (([(0 : ℝ), 1000]).getD m 0) / weight s2 (([(0 : ℝ), 1000]).getD k 0)) ∧
    (∀ k, Tendsto (fun s => weight s (([(0 : ℝ), 1000]).getD k 0)) atTop (nhds 1)) ∧
    (∀ i j, Tendsto (fun s =>
        (qpe_ground (Grid.mk 2 1 1 (fun k _ _ => if k = 0 then some 10 else none))
          [(0 : ℝ), 1000] s i j).getD 0) atTop
      (nhds ((∑ k in range
          (Grid.mk 2 1 1 (fun k _ _ => if k = 0 then some 10 else none)).nz,
          ((Grid.mk 2 1 1 (fun k _ _ => if k = 0 then some 10 else none)).val k i j).getD 0)
        / ((Grid.mk 2 1 1 (fun k _ _ => if k = 0 then some 10 else none)).nz : ℝ))))) :=
  ⟨by norm_num, by norm_num,
    (by
      intro a b hab hb
      have hb2 : b < 2 := hb
      interval_cases b
      · omega
      · have ha : a = 0 := by omega
        subst ha
        show (0 : ℝ) < 1000
        norm_num),
    C8_scale_monotone_limit _ _ (by norm_num) (by norm_num)
      (by
        intro a b hab hb
        have hb2 : b < 2 := hb
        interval_cases b
        · omega
        · have ha : a = 0 := by omega
          subst ha
          show (0 : ℝ) < 1000
          norm_num)⟩
